import Mathlib

/-!
Verification of the incremental bz2 decompression engine of `gstbz2dec.c`
(`gst_bz2dec_chain`, `gst_bz2dec_decompress_init`, `gst_bz2dec_decompress_end`).

The underlying bzlib primitive (`BZ2_bzDecompress`) is modelled as a black box:
an oracle with opaque internal state that, given the input window and the free
output capacity, returns a status code, its new internal state, the number of
input bytes it consumed and the list of output bytes it wrote.  Per the bzlib
contract the cumulative counter `total_out` (the 64-bit pair
`total_out_hi32:total_out_lo32`) advances by exactly the number of bytes
written, which the embedding tracks in `Bz2Stream.totalOut`; `total_out_lo32`
is its value modulo 2^32.  The downstream peer (`gst_pad_alloc_buffer` /
`gst_pad_push`) is likewise a stateful black box that may fail either call.
Machine integers: `guint` arithmetic is modelled modulo 4294967296 (2^32) and
`guint64` arithmetic modulo 18446744073709551616 (2^64).
-/

/-- Status code returned by one `BZ2_bzDecompress` call: `BZ_OK`,
`BZ_STREAM_END`, or any other (error) code. -/
inductive BzRet : Type
  | ok : BzRet
  | streamEnd : BzRet
  | err : Int → BzRet
deriving DecidableEq, Repr

/-- True iff the code is neither `BZ_OK` nor `BZ_STREAM_END`
(the test at line 128 of the source). -/
def BzRet.isErr : BzRet → Bool
  | BzRet.err _ => true
  | _ => false

/-- The numeric error code carried by an error status (0 otherwise). -/
def BzRet.errCode : BzRet → Int
  | BzRet.err c => c
  | _ => 0

/-- Observable effect of one `BZ2_bzDecompress` call: status, new opaque
internal state, how many input bytes were consumed, and the bytes written into
the output window. -/
structure BzStepOut (σ : Type) : Type where
  ret : BzRet
  inner : σ
  consumed : Nat
  produced : List Nat
deriving DecidableEq, Repr

/-- Black-box model of the bzlib decompression primitive.  `zeroed` is the
all-zero internal state left by `memset` in `gst_bz2dec_decompress_end`;
`initOk` tells whether `BZ2_bzDecompressInit` returns `BZ_OK`; `fresh` is the
internal state it installs on success; `step` is `BZ2_bzDecompress`. -/
structure BzOracle (σ : Type) : Type where
  zeroed : σ
  initOk : Bool
  fresh : σ
  step : σ → List Nat → Nat → BzStepOut σ

/-- Well-formedness of the primitive: it never consumes more input than the
window holds, and never writes more bytes than the output window's capacity. -/
def BzOracle.WF {σ : Type} (o : BzOracle σ) : Prop :=
  ∀ s inp cap, (o.step s inp cap).consumed ≤ inp.length ∧
    (o.step s inp cap).produced.length ≤ cap

/-- The fields of the C `bz_stream` that the element reads or writes:
the remaining input window (`next_in`/`avail_in`), the 64-bit cumulative
output counter (`total_out_hi32:total_out_lo32`), and the opaque internal
decoder state. -/
structure Bz2Stream (σ : Type) : Type where
  availIn : List Nat
  totalOut : Nat
  inner : σ
deriving DecidableEq, Repr

/-- The element record `struct _GstBz2dec`: `buffer_size` property, `ready`
flag, the `bz_stream`, and the `guint64 offset` field. -/
structure GstBz2dec (σ : Type) : Type where
  buffer_size : Nat
  ready : Bool
  stream : Bz2Stream σ
  offset : Nat
deriving DecidableEq, Repr

/-- Result of a pad operation, abstracting `GstFlowReturn`; the code only
distinguishes `GST_FLOW_OK` from everything else and propagates the value. -/
inductive GstFlowReturn : Type
  | ok : GstFlowReturn
  | notLinked : GstFlowReturn
  | flushing : GstFlowReturn
  | eos : GstFlowReturn
  | error : GstFlowReturn
deriving DecidableEq, Repr

/-- An output buffer as pushed downstream: its byte contents (already trimmed
to the bytes actually produced) and its stamped `GST_BUFFER_OFFSET`. -/
structure OutBuf : Type where
  data : List Nat
  offset : Nat
deriving DecidableEq, Repr

/-- Conditions posted via `GST_ELEMENT_ERROR` in the source. -/
inductive ElemError : Type
  | notReady : ElemError
  | initFailed : ElemError
  | decodeFailed : Int → ElemError
deriving DecidableEq, Repr

/-- Black-box model of the downstream peer: `alloc` is
`gst_pad_alloc_buffer src offset size` (on success it yields a buffer of the
requested capacity), `push` is `gst_pad_push`.  Both may fail and both may
update the peer's private state `δ`. -/
structure Sink (δ : Type) : Type where
  alloc : δ → Nat → Nat → GstFlowReturn × δ
  push : δ → OutBuf → GstFlowReturn × δ

/-- Everything one `gst_bz2dec_chain` call returns or effects: the
`GstFlowReturn`, the element state afterwards, the peer state afterwards, the
buffers pushed downstream in order, the posted element errors in order, and
the last bzlib status observed when the loop exited. -/
structure ChainResult (σ δ : Type) : Type where
  flow : GstFlowReturn
  state : GstBz2dec σ
  sink : δ
  outputs : List OutBuf
  errors : List ElemError
  exitRet : BzRet
deriving DecidableEq, Repr

/-- C `guint` subtraction `a - b` (wrap-around modulo 2^32), as in
`b->stream.total_out_lo32 - GST_BUFFER_SIZE (out)` at line 140. -/
def usub32 (a b : Nat) : Nat :=
  (a % 4294967296 + (4294967296 - b % 4294967296)) % 4294967296

/-- Errors posted by `gst_bz2dec_decompress_init`: none when
`BZ2_bzDecompressInit` succeeds, the fatal start-failure condition otherwise. -/
def initErrors {σ : Type} (o : BzOracle σ) : List ElemError :=
  if o.initOk then [] else [ElemError.initFailed]

/-- `gst_bz2dec_decompress_end` (source lines 67-77): when ready, release the
session, `memset` the `bz_stream` to zero and clear `ready`; otherwise do
nothing. -/
def gst_bz2dec_decompress_end {σ : Type} (o : BzOracle σ) (b : GstBz2dec σ) :
    GstBz2dec σ :=
  if b.ready then
    { b with stream := ⟨[], 0, o.zeroed⟩, ready := false }
  else b

/-- `gst_bz2dec_decompress_init` (source lines 79-96): tear down, reset
`offset` to 0, then `BZ2_bzDecompressInit`; on `BZ_OK` set `ready`, otherwise
clear `ready` (the posted error is reported via `initErrors`).  bzlib init
zeroes the total counters and installs a fresh internal state; it does not
touch `next_in`/`avail_in`. -/
def gst_bz2dec_decompress_init {σ : Type} (o : BzOracle σ) (b : GstBz2dec σ) :
    GstBz2dec σ :=
  let b1 := gst_bz2dec_decompress_end o b
  if o.initOk then
    { b1 with offset := 0, ready := true,
              stream := ⟨b1.stream.availIn, 0, o.fresh⟩ }
  else
    { b1 with offset := 0, ready := false }

/-- `gst_bz2dec_init` (source lines 152-169): fresh element with the default
`buffer_size` of 1024, then `gst_bz2dec_decompress_init`. -/
def gst_bz2dec_element_init {σ : Type} (o : BzOracle σ) : GstBz2dec σ :=
  gst_bz2dec_decompress_init o
    { buffer_size := 1024, ready := false, stream := ⟨[], 0, o.zeroed⟩,
      offset := 0 }

/-- `gst_bz2dec_set_property` for `PROP_BUFFER_SIZE` (source lines 208-221). -/
def gst_bz2dec_set_buffer_size {σ : Type} (b : GstBz2dec σ) (v : Nat) :
    GstBz2dec σ :=
  { b with buffer_size := v }

/-- Element state after one `BZ2_bzDecompress` call: `next_in`/`avail_in`
advanced past the consumed bytes, `total_out` advanced by the bytes written,
and the opaque internal state replaced. -/
def bz2Advance {σ : Type} (b : GstBz2dec σ) (out : BzStepOut σ) : GstBz2dec σ :=
  { b with stream := ⟨b.stream.availIn.drop out.consumed,
                      b.stream.totalOut + out.produced.length, out.inner⟩ }

/-- The buffer pushed at line 142: its size trimmed to the bytes produced
(line 139) and `GST_BUFFER_OFFSET` stamped with the `guint` value
`total_out_lo32 - GST_BUFFER_SIZE (out)` (line 140), where `total_out` has
already been advanced by the call. -/
def bz2MkOut {σ : Type} (b : GstBz2dec σ) (out : BzStepOut σ) : OutBuf :=
  ⟨out.produced, usub32 (b.stream.totalOut + out.produced.length)
                        out.produced.length⟩

/-- `b->offset += n` at line 146 (`guint64` arithmetic). -/
def bz2Bump {σ : Type} (b : GstBz2dec σ) (n : Nat) : GstBz2dec σ :=
  { b with offset := (b.offset + n) % 18446744073709551616 }

/-- The `while (r != BZ_STREAM_END)` loop of `gst_bz2dec_chain`
(source lines 117-147), fuelled so the recursion is structural; `none` means
the fuel ran out before the loop exited.  Each fuel step is one test of the
loop condition.  The branches, in source order: exit when `r` is
`BZ_STREAM_END`; allocation failure reinitializes and propagates the failure
(lines 120-124); a decompression error posts the decode condition,
reinitializes, drops the buffer and returns `GST_FLOW_ERROR` (lines 128-134);
a call that produced no bytes drops the buffer and leaves the loop
(lines 135-138, then line 149 returns `GST_FLOW_OK`); otherwise the trimmed,
offset-stamped buffer is pushed — a push failure is propagated without any
reinitialization (lines 142-145) — and `b->offset` advances (line 146). -/
def chainLoop {σ δ : Type} (o : BzOracle σ) (sink : Sink δ) :
    Nat → GstBz2dec σ → δ → BzRet → Option (ChainResult σ δ)
  | 0, _, _, _ => none
  | Nat.succ fuel, b, d, r =>
    if r = BzRet.streamEnd then
      some ⟨GstFlowReturn.ok, b, d, [], [], r⟩
    else if (sink.alloc d b.offset b.buffer_size).1 ≠ GstFlowReturn.ok then
      some ⟨(sink.alloc d b.offset b.buffer_size).1,
            gst_bz2dec_decompress_init o b,
            (sink.alloc d b.offset b.buffer_size).2, [], initErrors o, r⟩
    else if (o.step b.stream.inner b.stream.availIn b.buffer_size).ret.isErr then
      some ⟨GstFlowReturn.error,
            gst_bz2dec_decompress_init o
              (bz2Advance b (o.step b.stream.inner b.stream.availIn b.buffer_size)),
            (sink.alloc d b.offset b.buffer_size).2, [],
            ElemError.decodeFailed
              (o.step b.stream.inner b.stream.availIn b.buffer_size).ret.errCode
              :: initErrors o,
            (o.step b.stream.inner b.stream.availIn b.buffer_size).ret⟩
    else if (o.step b.stream.inner b.stream.availIn b.buffer_size).produced.length = 0 then
      some ⟨GstFlowReturn.ok,
            bz2Advance b (o.step b.stream.inner b.stream.availIn b.buffer_size),
            (sink.alloc d b.offset b.buffer_size).2, [], [],
            (o.step b.stream.inner b.stream.availIn b.buffer_size).ret⟩
    else if (sink.push (sink.alloc d b.offset b.buffer_size).2
              (bz2MkOut b (o.step b.stream.inner b.stream.availIn b.buffer_size))).1
            ≠ GstFlowReturn.ok then
      some ⟨(sink.push (sink.alloc d b.offset b.buffer_size).2
              (bz2MkOut b (o.step b.stream.inner b.stream.availIn b.buffer_size))).1,
            bz2Advance b (o.step b.stream.inner b.stream.availIn b.buffer_size),
            (sink.push (sink.alloc d b.offset b.buffer_size).2
              (bz2MkOut b (o.step b.stream.inner b.stream.availIn b.buffer_size))).2,
            [], [],
            (o.step b.stream.inner b.stream.availIn b.buffer_size).ret⟩
    else
      (chainLoop o sink fuel
        (bz2Bump (bz2Advance b (o.step b.stream.inner b.stream.availIn b.buffer_size))
          (o.step b.stream.inner b.stream.availIn b.buffer_size).produced.length)
        (sink.push (sink.alloc d b.offset b.buffer_size).2
          (bz2MkOut b (o.step b.stream.inner b.stream.availIn b.buffer_size))).2
        (o.step b.stream.inner b.stream.availIn b.buffer_size).ret).map
        (fun res =>
          { res with outputs :=
              bz2MkOut b (o.step b.stream.inner b.stream.availIn b.buffer_size)
                :: res.outputs })

/-- `gst_bz2dec_chain` (source lines 98-150): fail with the not-ready
condition when `!b->ready` (lines 109-112, before anything else is touched);
otherwise bind `next_in`/`avail_in` to the input buffer (lines 114-115) and
run the loop starting from `r = BZ_OK`. -/
def gst_bz2dec_chain {σ δ : Type} (o : BzOracle σ) (sink : Sink δ)
    (fuel : Nat) (b : GstBz2dec σ) (d : δ) (input : List Nat) :
    Option (ChainResult σ δ) :=
  if b.ready then
    chainLoop o sink fuel { b with stream := { b.stream with availIn := input } }
      d BzRet.ok
  else
    some ⟨GstFlowReturn.error, b, d, [], [ElemError.notReady], BzRet.ok⟩

/-- Feed a sequence of input chunks through `gst_bz2dec_chain` one by one,
stopping at the first chain call that does not return `GST_FLOW_OK`;
collects all pushed buffers and posted errors in order. -/
def chainMany {σ δ : Type} (o : BzOracle σ) (sink : Sink δ) (fuel : Nat) :
    GstBz2dec σ → δ → List (List Nat) → Option (ChainResult σ δ)
  | b, d, [] => some ⟨GstFlowReturn.ok, b, d, [], [], BzRet.ok⟩
  | b, d, x :: xs =>
    match gst_bz2dec_chain o sink fuel b d x with
    | none => none
    | some r =>
      if r.flow = GstFlowReturn.ok then
        match chainMany o sink fuel r.state r.sink xs with
        | none => none
        | some r2 =>
          some { r2 with outputs := r.outputs ++ r2.outputs,
                         errors := r.errors ++ r2.errors }
      else
        some r

/-- Concatenation of the bytes of all pushed buffers of a run. -/
def chainBytes {σ δ : Type} (r : ChainResult σ δ) : List Nat :=
  (r.outputs.map OutBuf.data).flatten

/-- A downstream peer that always provides a buffer and always accepts a
push. -/
def okSink : Sink Unit :=
  { alloc := fun _ _ _ => (GstFlowReturn.ok, ()),
    push := fun _ _ => (GstFlowReturn.ok, ()) }

/-- Decidable check that the stamped offsets of a run's buffers are the
successive values of the cumulative output counter modulo 2^32, starting
from `t`. -/
def offsetsFromB (t : Nat) : List OutBuf → Bool
  | [] => true
  | ob :: rest =>
    decide (ob.offset = t % 4294967296) && offsetsFromB (t + ob.data.length) rest

/-- Sum of the lengths of the pushed buffers of a run. -/
def sumLens (outs : List OutBuf) : Nat :=
  (outs.map (fun ob => ob.data.length)).sum

/-- One step of an idealized streaming decompressor, used to instantiate the
black box for the stream-level claims.  Its internal state is the pair
(compressed bytes consumed so far, output bytes emitted so far); `f` maps a
compressed prefix to the output decodable from it, and `L` is the length of
the complete compressed stream (the position of its end-of-stream marker).
A step consumes the whole input window, emits the next `cap` not-yet-emitted
decodable bytes, and reports `BZ_STREAM_END` exactly when the whole stream has
been consumed and every decoded byte has been emitted. -/
def modelStep (f : List Nat → List Nat) (L : Nat) (s : List Nat × Nat)
    (inp : List Nat) (cap : Nat) : BzStepOut (List Nat × Nat) :=
  { ret := if (s.1 ++ inp).length = L ∧
              s.2 + (((f (s.1 ++ inp)).drop s.2).take cap).length
                = (f (s.1 ++ inp)).length
           then BzRet.streamEnd else BzRet.ok
    inner := (s.1 ++ inp, s.2 + (((f (s.1 ++ inp)).drop s.2).take cap).length)
    consumed := inp.length
    produced := ((f (s.1 ++ inp)).drop s.2).take cap }

/-- The idealized streaming decompressor as a black-box oracle. -/
def modelOracle (f : List Nat → List Nat) (L : Nat) :
    BzOracle (List Nat × Nat) :=
  { zeroed := ([], 0), initOk := true, fresh := ([], 0), step := modelStep f L }

/-- The decoded form used in the fixed 40-byte scenario. -/
def pattern40 : List Nat := List.range 40

/-- Element in the fixed 40-byte scenario: freshly initialized, then the
`buffer_size` property set to 16. -/
def scenarioStart : GstBz2dec (List Nat × Nat) :=
  gst_bz2dec_set_buffer_size
    (gst_bz2dec_element_init (modelOracle (fun _ => pattern40) 3)) 16

/-- Primitive behaviour producing three successive output bursts `p1`, `p2`,
`p3`, the third one reporting stream end; the first call consumes the whole
input window.  Instantiated with burst sizes crossing the 2^32 output
boundary it exhibits the `total_out_lo32` wrap-around. -/
def tripleOracle (p1 p2 p3 : List Nat) : BzOracle Nat :=
  { zeroed := 0, initOk := true, fresh := 0,
    step := fun n inp _ =>
      if n = 0 then ⟨BzRet.ok, 1, inp.length, p1⟩
      else if n = 1 then ⟨BzRet.ok, 2, 0, p2⟩
      else ⟨BzRet.streamEnd, 3, 0, p3⟩ }

/-- Ready element with a window of `bs` bytes and all counters zero. -/
def tripleStart (bs : Nat) : GstBz2dec Nat :=
  { buffer_size := bs, ready := true, stream := ⟨[], 0, 0⟩, offset := 0 }

/-- Primitive behaviour for the push-failure scenario: the first call writes
5 bytes, the second writes 3 bytes, both reporting `BZ_OK`. -/
def pushFailOracle : BzOracle Nat :=
  { zeroed := 0, initOk := true, fresh := 0,
    step := fun n inp _ =>
      if n = 0 then ⟨BzRet.ok, 1, inp.length, [1, 2, 3, 4, 5]⟩
      else ⟨BzRet.ok, n + 1, 0, [6, 7, 8]⟩ }

/-- Downstream peer that accepts the first push and rejects every later one
with `GST_FLOW_FLUSHING`; its state counts the pushes so far. -/
def pushFailSink : Sink Nat :=
  { alloc := fun k _ _ => (GstFlowReturn.ok, k),
    push := fun k _ =>
      (if k = 0 then GstFlowReturn.ok else GstFlowReturn.flushing, k + 1) }

/-- Ready element with an 8-byte window for the push-failure scenario. -/
def pushFailStart : GstBz2dec Nat :=
  { buffer_size := 8, ready := true, stream := ⟨[], 0, 0⟩, offset := 0 }

/-- Primitive behaviour that reports the unrecoverable code `BZ_DATA_ERROR`
(-4) on its first call. -/
def decodeErrOracle : BzOracle Nat :=
  { zeroed := 0, initOk := true, fresh := 7,
    step := fun n inp _ => ⟨BzRet.err (-4), n + 1, inp.length, []⟩ }

/-- Ready element mid-stream (nonzero counters) for the decode-error
scenario. -/
def decodeErrStart : GstBz2dec Nat :=
  { buffer_size := 4, ready := true, stream := ⟨[], 9, 3⟩, offset := 9 }

/-- Primitive behaviour that keeps reporting `BZ_OK` and writing one byte per
call without ever consuming input: each step produces output, yet the loop
never exits. -/
def spinOracle : BzOracle Unit :=
  { zeroed := (), initOk := true, fresh := (),
    step := fun _ _ cap => ⟨BzRet.ok, (), 0, List.replicate (min cap 1) 0⟩ }

/-- Ready element with a 1-byte window for the non-termination scenario. -/
def spinStart : GstBz2dec Unit :=
  { buffer_size := 1, ready := true, stream := ⟨[], 0, ()⟩, offset := 0 }

/-- Primitive behaviour that consumes its whole input window and writes
nothing, always reporting `BZ_OK`. -/
def drainOracle : BzOracle Unit :=
  { zeroed := (), initOk := true, fresh := (),
    step := fun _ inp _ => ⟨BzRet.ok, (), inp.length, []⟩ }

/-- A trivial oracle over a unit session state, for concrete teardown
scenarios. -/
def unitOracle : BzOracle Unit :=
  { zeroed := (), initOk := true, fresh := (), step := fun _ _ _ => ⟨BzRet.ok, (), 0, []⟩ }

/-- Downstream peer whose buffer allocation always fails with
`GST_FLOW_NOT_LINKED`. -/
def failAllocSink : Sink Unit :=
  { alloc := fun _ _ _ => (GstFlowReturn.notLinked, ()),
    push := fun _ _ => (GstFlowReturn.ok, ()) }

/-! ## Basic lemmas -/

/-- The `guint` expression `total_out_lo32 - size` computed after the call,
with `total_out` advanced by `size`, equals the pre-call cumulative output
count modulo 2^32. -/
theorem usub32_add (t n : Nat) : usub32 (t + n) n = t % 4294967296 := by
  unfold usub32
  omega

/-- The idealized streaming decompressor is a well-formed primitive. -/
theorem modelOracle_WF (f : List Nat → List Nat) (L : Nat) :
    (modelOracle f L).WF := by
  intro s inp cap
  constructor
  · exact Nat.le_refl _
  · simp only [modelOracle, modelStep]
    exact List.length_take_le _ _

/-! ## Claim C6: chain on a not-ready decoder -/

/-- C6: if `gst_bz2dec_chain` is invoked while `ready == false`, it posts the
not-ready condition and returns `GST_FLOW_ERROR`, runs no decompression step,
pushes nothing, touches the downstream peer not at all, and returns the
element state completely unchanged. -/
theorem c6_not_ready {σ δ : Type} (o : BzOracle σ) (sink : Sink δ)
    (fuel : Nat) (b : GstBz2dec σ) (d : δ) (input : List Nat)
    (h : b.ready = false) :
    gst_bz2dec_chain o sink fuel b d input =
      some ⟨GstFlowReturn.error, b, d, [], [ElemError.notReady], BzRet.ok⟩ := by
  simp [gst_bz2dec_chain, h]

/-- Witness for C6 at a concrete not-ready element. -/
theorem c6_witness :
    gst_bz2dec_chain unitOracle okSink 3
        (⟨4, false, ⟨[], 0, ()⟩, 0⟩ : GstBz2dec Unit) () [1] =
      some ⟨GstFlowReturn.error, ⟨4, false, ⟨[], 0, ()⟩, 0⟩, (), [],
            [ElemError.notReady], BzRet.ok⟩ :=
  c6_not_ready unitOracle okSink 3 _ () [1] rfl

/-! ## Claim C8: teardown is idempotent and total -/

/-- C8: `gst_bz2dec_decompress_end` is a no-op on a not-ready element,
applying it twice equals applying it once, and it always leaves
`ready == false`. -/
theorem c8_teardown_idempotent {σ : Type} (o : BzOracle σ) (b : GstBz2dec σ) :
    (b.ready = false → gst_bz2dec_decompress_end o b = b) ∧
    gst_bz2dec_decompress_end o (gst_bz2dec_decompress_end o b) =
      gst_bz2dec_decompress_end o b ∧
    (gst_bz2dec_decompress_end o b).ready = false := by
  cases hb : b.ready <;> simp [gst_bz2dec_decompress_end, hb]

/-- Witness for C8 at a concrete torn-down element. -/
theorem c8_witness :
    gst_bz2dec_decompress_end unitOracle
        (⟨4, false, ⟨[], 0, ()⟩, 0⟩ : GstBz2dec Unit) =
      ⟨4, false, ⟨[], 0, ()⟩, 0⟩ ∧
    gst_bz2dec_decompress_end unitOracle
        (gst_bz2dec_decompress_end unitOracle
          (⟨4, false, ⟨[], 0, ()⟩, 0⟩ : GstBz2dec Unit)) =
      gst_bz2dec_decompress_end unitOracle ⟨4, false, ⟨[], 0, ()⟩, 0⟩ :=
  ⟨(c8_teardown_idempotent unitOracle _).1 rfl,
   (c8_teardown_idempotent unitOracle _).2.1⟩

/-! ## Claim C7: the fixed 40-byte scenario -/

/-- C7: with `buffer_size = 16` and a single input chunk whose compressed
payload decodes to 40 bytes, the chain call pushes exactly three buffers of
lengths 16, 16, 8 with offsets 0, 16, 32 in that order, posts no error,
returns `GST_FLOW_OK`, and exits the loop on `BZ_STREAM_END`. -/
theorem c7_scenario :
    (gst_bz2dec_chain (modelOracle (fun _ => pattern40) 3) okSink 10
        scenarioStart () [5, 6, 7]).map
        (fun r => (r.flow,
                   r.outputs.map (fun ob => (ob.data.length, ob.offset)),
                   r.exitRet, r.errors))
      = some (GstFlowReturn.ok, [(16, 0), (16, 16), (8, 32)],
              BzRet.streamEnd, []) := by
  decide

/-! ## Claim C4: decode errors reinitialize before the next chunk -/

/-- If a loop run posted the decode-failure condition, then (when the session
restart succeeds) the run returned `GST_FLOW_ERROR` and left the element ready
with its offset reset to 0. -/
theorem chainLoop_decode_error {σ δ : Type} (o : BzOracle σ) (sink : Sink δ)
    (hinit : o.initOk = true) :
    ∀ (fuel : Nat) (b : GstBz2dec σ) (d : δ) (r : BzRet)
      (res : ChainResult σ δ) (c : Int),
      chainLoop o sink fuel b d r = some res →
      ElemError.decodeFailed c ∈ res.errors →
      res.flow = GstFlowReturn.error ∧ res.state.ready = true ∧
        res.state.offset = 0
  | 0, b, d, r, res, c => by
      intro h
      simp [chainLoop] at h
  | Nat.succ fuel, b, d, r, res, c => by
      intro h hmem
      rw [chainLoop] at h
      split at h
      · cases h
        simp at hmem
      · split at h
        · cases h
          simp [initErrors, hinit] at hmem
        · split at h
          · cases h
            refine ⟨rfl, ?_, ?_⟩ <;>
              simp [gst_bz2dec_decompress_init, gst_bz2dec_decompress_end,
                    hinit]
          · split at h
            · cases h
              simp at hmem
            · split at h
              · cases h
                simp at hmem
              · rw [Option.map_eq_some'] at h
                obtain ⟨res', hrec, hres⟩ := h
                subst hres
                exact chainLoop_decode_error o sink hinit fuel _ _ _ res' c
                  hrec hmem

/-- C4: if a chain call posted the decode-failure condition (an unrecoverable
result from a decompression step), then — assuming the session restart
succeeds — the call returned `GST_FLOW_ERROR` and the element state handed to
the next chain call already has `ready == true` and `offset == 0`. -/
theorem c4_decode_error_reinit {σ δ : Type} (o : BzOracle σ) (sink : Sink δ)
    (fuel : Nat) (b : GstBz2dec σ) (d : δ) (input : List Nat)
    (res : ChainResult σ δ) (c : Int)
    (hinit : o.initOk = true)
    (h : gst_bz2dec_chain o sink fuel b d input = some res)
    (herr : ElemError.decodeFailed c ∈ res.errors) :
    res.flow = GstFlowReturn.error ∧ res.state.ready = true ∧
      res.state.offset = 0 := by
  unfold gst_bz2dec_chain at h
  split at h
  · exact chainLoop_decode_error o sink hinit fuel _ _ _ res c h herr
  · cases h
    simp at herr

/-- Witness for C4: a decode error with code `BZ_DATA_ERROR` hit mid-stream
leaves the element ready with offset 0 and returns `GST_FLOW_ERROR`. -/
theorem c4_witness :
    (⟨GstFlowReturn.error, ⟨4, true, ⟨[], 0, 7⟩, 0⟩, (), [],
      [ElemError.decodeFailed (-4)], BzRet.err (-4)⟩ :
        ChainResult Nat Unit).flow = GstFlowReturn.error ∧
    (⟨GstFlowReturn.error, ⟨4, true, ⟨[], 0, 7⟩, 0⟩, (), [],
      [ElemError.decodeFailed (-4)], BzRet.err (-4)⟩ :
        ChainResult Nat Unit).state.ready = true ∧
    (⟨GstFlowReturn.error, ⟨4, true, ⟨[], 0, 7⟩, 0⟩, (), [],
      [ElemError.decodeFailed (-4)], BzRet.err (-4)⟩ :
        ChainResult Nat Unit).state.offset = 0 :=
  c4_decode_error_reinit decodeErrOracle okSink 3 decodeErrStart () [1, 2]
    _ (-4) rfl (by decide) (by decide)

/-! ## Claim C5: every pushed buffer fits the configured window -/

/-- Every buffer a loop run pushes is at most `buffer_size` bytes long,
provided the primitive never overruns the output window it is given. -/
theorem chainLoop_output_size {σ δ : Type} (o : BzOracle σ) (sink : Sink δ)
    (hwf : o.WF) :
    ∀ (fuel : Nat) (b : GstBz2dec σ) (d : δ) (r : BzRet)
      (res : ChainResult σ δ),
      chainLoop o sink fuel b d r = some res →
      ∀ ob ∈ res.outputs, ob.data.length ≤ b.buffer_size
  | 0, b, d, r, res => by
      intro h
      simp [chainLoop] at h
  | Nat.succ fuel, b, d, r, res => by
      intro h
      rw [chainLoop] at h
      split at h
      · cases h; simp
      · split at h
        · cases h; simp
        · split at h
          · cases h; simp
          · split at h
            · cases h; simp
            · split at h
              · cases h; simp
              · rw [Option.map_eq_some'] at h
                obtain ⟨res', hrec, hres⟩ := h
                subst hres
                intro ob hob
                rcases List.mem_cons.mp hob with hob | hob
                · subst hob
                  exact (hwf b.stream.inner b.stream.availIn b.buffer_size).2
                · exact chainLoop_output_size o sink hwf fuel _ _ _ res'
                    hrec ob hob

/-- C5: no buffer handed downstream by a chain call exceeds the configured
`buffer_size` (constant throughout the call), given a primitive that respects
the capacity of the output window. -/
theorem c5_output_bounded {σ δ : Type} (o : BzOracle σ) (sink : Sink δ)
    (fuel : Nat) (b : GstBz2dec σ) (d : δ) (input : List Nat)
    (res : ChainResult σ δ)
    (hwf : o.WF)
    (h : gst_bz2dec_chain o sink fuel b d input = some res) :
    ∀ ob ∈ res.outputs, ob.data.length ≤ b.buffer_size := by
  unfold gst_bz2dec_chain at h
  split at h
  · have hb := chainLoop_output_size o sink hwf fuel _ _ _ res h
    exact hb
  · cases h
    simp

/-- Witness for C5: the first buffer of the 40-byte scenario is 16 bytes
long, within the configured window of 16. -/
theorem c5_witness :
    (⟨pattern40.take 16, 0⟩ : OutBuf).data.length ≤ 16 :=
  c5_output_bounded (modelOracle (fun _ => pattern40) 3) okSink 10
    scenarioStart () [5, 6, 7] _
    (modelOracle_WF (fun _ => pattern40) 3) rfl
    ⟨pattern40.take 16, 0⟩ (by decide)

/-! ## Claim C10: stamped offsets are the cumulative count modulo 2^32 -/

/-- Offsets of the buffers pushed by a loop run: every buffer is stamped with
the value of the cumulative output counter at the start of that buffer,
reduced modulo 2^32; and a run that returns `GST_FLOW_OK` has advanced the
counter by exactly the bytes it pushed. -/
theorem chainLoop_offsets {σ δ : Type} (o : BzOracle σ) (sink : Sink δ) :
    ∀ (fuel : Nat) (b : GstBz2dec σ) (d : δ) (r : BzRet)
      (res : ChainResult σ δ),
      chainLoop o sink fuel b d r = some res →
      offsetsFromB b.stream.totalOut res.outputs = true ∧
      (res.flow = GstFlowReturn.ok →
        res.state.stream.totalOut = b.stream.totalOut + sumLens res.outputs)
  | 0, b, d, r, res => by
      intro h
      simp [chainLoop] at h
  | Nat.succ fuel, b, d, r, res => by
      intro h
      rw [chainLoop] at h
      split at h
      · cases h
        exact ⟨rfl, fun _ => by simp [sumLens]⟩
      · split at h
        · rename_i hcond
          cases h
          exact ⟨rfl, fun hf => absurd hf hcond⟩
        · split at h
          · cases h
            refine ⟨rfl, fun hf => ?_⟩
            simp at hf
          · split at h
            · rename_i hzero
              cases h
              refine ⟨rfl, fun _ => ?_⟩
              simp [bz2Advance, sumLens, hzero]
            · split at h
              · rename_i hpush
                cases h
                exact ⟨rfl, fun hf => absurd hf hpush⟩
              · rw [Option.map_eq_some'] at h
                obtain ⟨res', hrec, hres⟩ := h
                subst hres
                have ih := chainLoop_offsets o sink fuel _ _ _ res' hrec
                constructor
                · simp only [offsetsFromB, Bool.and_eq_true, decide_eq_true_eq]
                  constructor
                  · simp [bz2MkOut, usub32_add]
                  · have ih1 := ih.1
                    simp only [bz2Bump, bz2Advance] at ih1
                    simp [bz2MkOut]
                    exact ih1
                · intro hf
                  have ih2 := ih.2 hf
                  simp only [bz2Bump, bz2Advance] at ih2
                  simp only [sumLens, List.map_cons, List.sum_cons, bz2MkOut]
                  simp only [sumLens] at ih2
                  omega

/-- C10: in any chain call, every pushed buffer's stamped `GST_BUFFER_OFFSET`
equals the primitive's cumulative output byte count at the start of that
buffer reduced modulo 2^32 (the `total_out_lo32` arithmetic of line 140),
regardless of the 64-bit `offset` field the element also maintains. -/
theorem c10_offsets_mod32 {σ δ : Type} (o : BzOracle σ) (sink : Sink δ)
    (fuel : Nat) (b : GstBz2dec σ) (d : δ) (input : List Nat)
    (res : ChainResult σ δ)
    (h : gst_bz2dec_chain o sink fuel b d input = some res) :
    offsetsFromB b.stream.totalOut res.outputs = true := by
  unfold gst_bz2dec_chain at h
  split at h
  · have hb := (chainLoop_offsets o sink fuel _ _ _ res h).1
    exact hb
  · cases h
    rfl

/-! ## Single-iteration unfolding lemmas for the chunk loop -/

/-- Loop exit at the top of the `while`: the previous call reported
`BZ_STREAM_END`, so the loop ends and the chain call returns `GST_FLOW_OK`. -/
theorem chainLoop_succ_end {σ δ : Type} (o : BzOracle σ) (sink : Sink δ)
    (fuel : Nat) (b : GstBz2dec σ) (d : δ) :
    chainLoop o sink (fuel + 1) b d BzRet.streamEnd =
      some ⟨GstFlowReturn.ok, b, d, [], [], BzRet.streamEnd⟩ := by
  rw [chainLoop]
  rw [if_pos rfl]

/-- Loop iteration whose `gst_pad_alloc_buffer` fails: the element is
reinitialized and the allocation's flow result is returned. -/
theorem chainLoop_succ_allocfail {σ δ : Type} (o : BzOracle σ) (sink : Sink δ)
    (fuel : Nat) (b : GstBz2dec σ) (d : δ) (r : BzRet)
    (hr : r ≠ BzRet.streamEnd)
    (halloc : (sink.alloc d b.offset b.buffer_size).1 ≠ GstFlowReturn.ok) :
    chainLoop o sink (fuel + 1) b d r =
      some ⟨(sink.alloc d b.offset b.buffer_size).1,
            gst_bz2dec_decompress_init o b,
            (sink.alloc d b.offset b.buffer_size).2, [], initErrors o, r⟩ := by
  rw [chainLoop]
  rw [if_neg hr, if_pos halloc]

/-- Loop iteration whose decompression call produces no byte: the buffer is
dropped and the loop is left with `GST_FLOW_OK`. -/
theorem chainLoop_succ_zero {σ δ : Type} (o : BzOracle σ) (sink : Sink δ)
    (fuel : Nat) (b : GstBz2dec σ) (d : δ) (r : BzRet)
    (hr : r ≠ BzRet.streamEnd)
    (halloc : (sink.alloc d b.offset b.buffer_size).1 = GstFlowReturn.ok)
    (herr : (o.step b.stream.inner b.stream.availIn b.buffer_size).ret.isErr
              = false)
    (hn : (o.step b.stream.inner b.stream.availIn b.buffer_size).produced.length
            = 0) :
    chainLoop o sink (fuel + 1) b d r =
      some ⟨GstFlowReturn.ok,
            bz2Advance b (o.step b.stream.inner b.stream.availIn b.buffer_size),
            (sink.alloc d b.offset b.buffer_size).2, [], [],
            (o.step b.stream.inner b.stream.availIn b.buffer_size).ret⟩ := by
  rw [chainLoop]
  rw [if_neg hr, if_neg (by simp [halloc]), if_neg (by simp [herr]), if_pos hn]

/-- Loop iteration whose `gst_pad_push` fails: the failure is propagated as
is, with no reinitialization of the element. -/
theorem chainLoop_succ_pushfail {σ δ : Type} (o : BzOracle σ) (sink : Sink δ)
    (fuel : Nat) (b : GstBz2dec σ) (d : δ) (r : BzRet)
    (hr : r ≠ BzRet.streamEnd)
    (halloc : (sink.alloc d b.offset b.buffer_size).1 = GstFlowReturn.ok)
    (herr : (o.step b.stream.inner b.stream.availIn b.buffer_size).ret.isErr
              = false)
    (hn : (o.step b.stream.inner b.stream.availIn b.buffer_size).produced.length
            ≠ 0)
    (hpush : (sink.push (sink.alloc d b.offset b.buffer_size).2
                (bz2MkOut b (o.step b.stream.inner b.stream.availIn b.buffer_size))).1
              ≠ GstFlowReturn.ok) :
    chainLoop o sink (fuel + 1) b d r =
      some ⟨(sink.push (sink.alloc d b.offset b.buffer_size).2
              (bz2MkOut b (o.step b.stream.inner b.stream.availIn b.buffer_size))).1,
            bz2Advance b (o.step b.stream.inner b.stream.availIn b.buffer_size),
            (sink.push (sink.alloc d b.offset b.buffer_size).2
              (bz2MkOut b (o.step b.stream.inner b.stream.availIn b.buffer_size))).2,
            [], [],
            (o.step b.stream.inner b.stream.availIn b.buffer_size).ret⟩ := by
  rw [chainLoop]
  rw [if_neg hr, if_neg (by simp [halloc]), if_neg (by simp [herr]),
      if_neg hn, if_pos hpush]

/-- Ordinary productive loop iteration: allocation succeeds, the call makes
progress, the trimmed and stamped buffer is pushed successfully, and the loop
continues with the element advanced. -/
theorem chainLoop_succ_push {σ δ : Type} (o : BzOracle σ) (sink : Sink δ)
    (fuel : Nat) (b : GstBz2dec σ) (d : δ) (r : BzRet)
    (hr : r ≠ BzRet.streamEnd)
    (halloc : (sink.alloc d b.offset b.buffer_size).1 = GstFlowReturn.ok)
    (herr : (o.step b.stream.inner b.stream.availIn b.buffer_size).ret.isErr
              = false)
    (hn : (o.step b.stream.inner b.stream.availIn b.buffer_size).produced.length
            ≠ 0)
    (hpush : (sink.push (sink.alloc d b.offset b.buffer_size).2
                (bz2MkOut b (o.step b.stream.inner b.stream.availIn b.buffer_size))).1
              = GstFlowReturn.ok) :
    chainLoop o sink (fuel + 1) b d r =
      (chainLoop o sink fuel
          (bz2Bump (bz2Advance b (o.step b.stream.inner b.stream.availIn b.buffer_size))
            (o.step b.stream.inner b.stream.availIn b.buffer_size).produced.length)
          (sink.push (sink.alloc d b.offset b.buffer_size).2
            (bz2MkOut b (o.step b.stream.inner b.stream.availIn b.buffer_size))).2
          (o.step b.stream.inner b.stream.availIn b.buffer_size).ret).map
        (fun res =>
          { res with outputs :=
              bz2MkOut b (o.step b.stream.inner b.stream.availIn b.buffer_size)
                :: res.outputs }) := by
  rw [chainLoop]
  rw [if_neg hr, if_neg (by simp [halloc]), if_neg (by simp [herr]),
      if_neg hn, if_neg (by simp [hpush])]

/-- The stamped offset of a buffer that is the whole output so far is 0. -/
theorem usub32_self (n : Nat) : usub32 n n = 0 := by
  unfold usub32
  omega

/-- Symbolic evaluation of a chain call against a primitive producing three
bursts `p1`, `p2`, `p3` (the last with `BZ_STREAM_END`): three buffers are
pushed, stamped with the cumulative counts modulo 2^32. -/
theorem tripleRun (p1 p2 p3 : List Nat) (bs : Nat)
    (h1 : p1.length ≠ 0) (h2 : p2.length ≠ 0) (h3 : p3.length ≠ 0) :
    (gst_bz2dec_chain (tripleOracle p1 p2 p3) okSink 5 (tripleStart bs) () [1]).map
        (fun r => (r.flow, r.outputs, r.errors, r.exitRet))
      = some (GstFlowReturn.ok,
              [⟨p1, 0⟩, ⟨p2, p1.length % 4294967296⟩,
               ⟨p3, (p1.length + p2.length) % 4294967296⟩],
              ([] : List ElemError), BzRet.streamEnd) := by
  have step1 : chainLoop (tripleOracle p1 p2 p3) okSink 5
      ⟨bs, true, ⟨[1], 0, 0⟩, 0⟩ () BzRet.ok
      = (chainLoop (tripleOracle p1 p2 p3) okSink 4
          ⟨bs, true, ⟨[], p1.length, 1⟩,
           p1.length % 18446744073709551616⟩ () BzRet.ok).map
          (fun res => { res with outputs := (⟨p1, 0⟩ : OutBuf) :: res.outputs }) := by
    rw [show (5 : Nat) = 4 + 1 from rfl]
    rw [chainLoop_succ_push (tripleOracle p1 p2 p3) okSink 4
        ⟨bs, true, ⟨[1], 0, 0⟩, 0⟩ () BzRet.ok (by decide) rfl rfl h1 rfl]
    simp [bz2Bump, bz2Advance, bz2MkOut, tripleOracle, okSink, usub32_self]
  have step2 : chainLoop (tripleOracle p1 p2 p3) okSink 4
      ⟨bs, true, ⟨[], p1.length, 1⟩, p1.length % 18446744073709551616⟩ () BzRet.ok
      = (chainLoop (tripleOracle p1 p2 p3) okSink 3
          ⟨bs, true, ⟨[], p1.length + p2.length, 2⟩,
           (p1.length + p2.length) % 18446744073709551616⟩ () BzRet.ok).map
          (fun res => { res with outputs :=
              (⟨p2, p1.length % 4294967296⟩ : OutBuf) :: res.outputs }) := by
    rw [show (4 : Nat) = 3 + 1 from rfl]
    rw [chainLoop_succ_push (tripleOracle p1 p2 p3) okSink 3
        ⟨bs, true, ⟨[], p1.length, 1⟩, p1.length % 18446744073709551616⟩ ()
        BzRet.ok (by decide) rfl rfl h2 rfl]
    simp [bz2Bump, bz2Advance, bz2MkOut, tripleOracle, okSink, usub32_add,
          Nat.mod_add_mod]
  have step3 : chainLoop (tripleOracle p1 p2 p3) okSink 3
      ⟨bs, true, ⟨[], p1.length + p2.length, 2⟩,
       (p1.length + p2.length) % 18446744073709551616⟩ () BzRet.ok
      = (chainLoop (tripleOracle p1 p2 p3) okSink 2
          ⟨bs, true, ⟨[], p1.length + p2.length + p3.length, 3⟩,
           (p1.length + p2.length + p3.length) % 18446744073709551616⟩ ()
          BzRet.streamEnd).map
          (fun res => { res with outputs :=
              (⟨p3, (p1.length + p2.length) % 4294967296⟩ : OutBuf)
                :: res.outputs }) := by
    rw [show (3 : Nat) = 2 + 1 from rfl]
    rw [chainLoop_succ_push (tripleOracle p1 p2 p3) okSink 2
        ⟨bs, true, ⟨[], p1.length + p2.length, 2⟩,
         (p1.length + p2.length) % 18446744073709551616⟩ ()
        BzRet.ok (by decide) rfl rfl h3 rfl]
    simp [bz2Bump, bz2Advance, bz2MkOut, tripleOracle, okSink, usub32_add,
          Nat.mod_add_mod]
  have stepE : chainLoop (tripleOracle p1 p2 p3) okSink 2
      ⟨bs, true, ⟨[], p1.length + p2.length + p3.length, 3⟩,
       (p1.length + p2.length + p3.length) % 18446744073709551616⟩ ()
      BzRet.streamEnd
      = some ⟨GstFlowReturn.ok,
              ⟨bs, true, ⟨[], p1.length + p2.length + p3.length, 3⟩,
               (p1.length + p2.length + p3.length) % 18446744073709551616⟩, (),
              [], [], BzRet.streamEnd⟩ := by
    rw [show (2 : Nat) = 1 + 1 from rfl]
    exact chainLoop_succ_end (tripleOracle p1 p2 p3) okSink 1 _ ()
  have hchain : gst_bz2dec_chain (tripleOracle p1 p2 p3) okSink 5
      (tripleStart bs) () [1]
      = chainLoop (tripleOracle p1 p2 p3) okSink 5
          ⟨bs, true, ⟨[1], 0, 0⟩, 0⟩ () BzRet.ok := rfl
  rw [hchain, step1, step2, step3, stepE]
  rfl

/-! ## Claim C2: offsets of consecutive buffers -/

/-- C2 counterexample: a successful, error-free chain call whose decoded
output crosses 2^32 cumulative bytes pushes buffers of lengths
2^32 - 8, 16, 8 stamped 0, 2^32 - 8, 8: the third offset is neither the
second offset plus the second length (it wrapped modulo 2^32), nor are the
offsets strictly increasing. -/
theorem c2_counterexample :
    (gst_bz2dec_chain
        (tripleOracle (List.replicate 4294967288 0) (List.replicate 16 0)
          (List.replicate 8 0)) okSink 5 (tripleStart 4294967288) () [1]).map
        (fun r => (r.flow,
                   r.outputs.map (fun ob => (ob.data.length, ob.offset)),
                   r.errors, r.exitRet))
      = some (GstFlowReturn.ok, [(4294967288, 0), (16, 4294967288), (8, 8)],
              ([] : List ElemError), BzRet.streamEnd) ∧
    ¬ List.Chain' (fun p q : Nat × Nat => q.2 = p.2 + p.1)
        [(4294967288, 0), (16, 4294967288), (8, 8)] ∧
    ¬ List.Chain' (fun p q : Nat × Nat => p.2 < q.2)
        [(4294967288, 0), (16, 4294967288), (8, 8)] := by
  refine ⟨?_, by simp [List.chain'_cons], by simp [List.chain'_cons]⟩
  have ht := tripleRun (List.replicate 4294967288 0) (List.replicate 16 0)
    (List.replicate 8 0) 4294967288
    (by rw [List.length_replicate]; norm_num)
    (by rw [List.length_replicate]; norm_num)
    (by rw [List.length_replicate]; norm_num)
  obtain ⟨r, hr, hproj⟩ := Option.map_eq_some'.mp ht
  rw [hr]
  simp only [Prod.mk.injEq] at hproj
  obtain ⟨hf, ho, he, hx⟩ := hproj
  simp only [Option.map_some', hf, ho, he, hx, List.map_cons, List.map_nil,
             List.length_replicate, Prod.mk.injEq]

/-- A list of buffers stamped with successive cumulative counts modulo 2^32
satisfies the pairwise law: each offset is the previous offset plus the
previous length, modulo 2^32. -/
theorem offsetsFromB_chain' :
    ∀ (outs : List OutBuf) (t : Nat), offsetsFromB t outs = true →
      List.Chain'
        (fun x y : OutBuf => y.offset = (x.offset + x.data.length) % 4294967296)
        outs
  | [], _, _ => List.chain'_nil
  | [a], _, _ => List.chain'_singleton a
  | a :: b :: rest, t, h => by
      simp only [offsetsFromB, Bool.and_eq_true, decide_eq_true_eq] at h
      obtain ⟨ha, hb, hrest⟩ := h
      rw [List.chain'_cons]
      refine ⟨by rw [hb, ha]; omega, ?_⟩
      apply offsetsFromB_chain' (b :: rest) (t + a.data.length)
      simp only [offsetsFromB, Bool.and_eq_true, decide_eq_true_eq]
      exact ⟨hb, hrest⟩

/-- One chain call stamps its buffers with successive cumulative counts
modulo 2^32 starting at the element's `total_out`, and on `GST_FLOW_OK`
leaves `total_out` advanced by exactly the bytes it pushed. -/
theorem chain_offsets {σ δ : Type} (o : BzOracle σ) (sink : Sink δ)
    (fuel : Nat) (b : GstBz2dec σ) (d : δ) (input : List Nat)
    (res : ChainResult σ δ)
    (h : gst_bz2dec_chain o sink fuel b d input = some res) :
    offsetsFromB b.stream.totalOut res.outputs = true ∧
    (res.flow = GstFlowReturn.ok →
      res.state.stream.totalOut = b.stream.totalOut + sumLens res.outputs) := by
  unfold gst_bz2dec_chain at h
  split at h
  · have hb := chainLoop_offsets o sink fuel _ _ _ res h
    exact hb
  · cases h
    exact ⟨rfl, fun hf => by simp at hf⟩

/-- Stamped-offset runs compose: buffers stamped from `t` followed by buffers
stamped from `t` plus the first batch's total length are together stamped
from `t`. -/
theorem offsetsFromB_append :
    ∀ (l1 l2 : List OutBuf) (t : Nat),
      offsetsFromB t l1 = true → offsetsFromB (t + sumLens l1) l2 = true →
      offsetsFromB t (l1 ++ l2) = true
  | [], l2, t, _, h2 => by
      simp only [sumLens, List.map_nil, List.sum_nil, Nat.add_zero] at h2
      simp only [List.nil_append]
      exact h2
  | ob :: l1, l2, t, h1, h2 => by
      simp only [offsetsFromB, Bool.and_eq_true, decide_eq_true_eq] at h1
      obtain ⟨ha, hrest⟩ := h1
      simp only [List.cons_append, offsetsFromB, Bool.and_eq_true,
                 decide_eq_true_eq]
      refine ⟨ha, ?_⟩
      apply offsetsFromB_append l1 l2 (t + ob.data.length) hrest
      have hsum : t + sumLens (ob :: l1) = t + ob.data.length + sumLens l1 := by
        simp only [sumLens, List.map_cons, List.sum_cons]
        omega
      exact hsum ▸ h2

/-- Across a whole `chainMany` run — one decoded stream fed as a sequence of
input chunks, stopping at the first failing chain call, so no error or
reinitialization intervenes — all pushed buffers, collected in order across
the calls, are stamped with successive cumulative counts modulo 2^32; and an
all-`GST_FLOW_OK` run advances `total_out` by exactly the bytes pushed. -/
theorem chainMany_offsets {σ δ : Type} (o : BzOracle σ) (sink : Sink δ)
    (F : Nat) :
    ∀ (chunks : List (List Nat)) (b : GstBz2dec σ) (d : δ)
      (res : ChainResult σ δ),
      chainMany o sink F b d chunks = some res →
      offsetsFromB b.stream.totalOut res.outputs = true ∧
      (res.flow = GstFlowReturn.ok →
        res.state.stream.totalOut = b.stream.totalOut + sumLens res.outputs)
  | [], b, d, res => by
      intro h
      simp only [chainMany] at h
      cases h
      exact ⟨rfl, fun _ => by simp [sumLens]⟩
  | x :: xs, b, d, res => by
      intro h
      simp only [chainMany] at h
      split at h
      · simp at h
      · rename_i r heq
        have hr := chain_offsets o sink F b d x r heq
        by_cases hflow : r.flow = GstFlowReturn.ok
        · rw [if_pos hflow] at h
          split at h
          · simp at h
          · rename_i r2 heq2
            have h2 := chainMany_offsets o sink F xs r.state r.sink r2 heq2
            cases h
            constructor
            · exact offsetsFromB_append r.outputs r2.outputs _ hr.1
                ((hr.2 hflow) ▸ h2.1)
            · intro hf
              have ht1 := hr.2 hflow
              have ht2 := h2.2 hf
              simp only [sumLens, List.map_append, List.sum_append] at ht1 ht2 ⊢
              omega
        · rw [if_neg hflow] at h
          cases h
          exact ⟨hr.1, fun hf => absurd hf hflow⟩

/-- C2 (amended): during one decoded stream — the buffers handed downstream
across all chain calls of a `chainMany` run, in order, with no intervening
error or reinitialization since the run stops at the first failure — the
stamped offsets of consecutive buffers are contiguous modulo 2^32:
offset(i+1) = (offset(i) + len(i)) mod 2^32, including across input-chunk
boundaries.  The unreduced equality, and with it strict increase, holds only
until the cumulative output reaches 2^32, as the counterexample shows. -/
theorem c2_amended_offsets_contiguous {σ δ : Type} (o : BzOracle σ)
    (sink : Sink δ) (F : Nat) (b : GstBz2dec σ) (d : δ)
    (chunks : List (List Nat)) (res : ChainResult σ δ)
    (h : chainMany o sink F b d chunks = some res) :
    List.Chain'
      (fun x y : OutBuf => y.offset = (x.offset + x.data.length) % 4294967296)
      res.outputs :=
  offsetsFromB_chain' res.outputs b.stream.totalOut
    (chainMany_offsets o sink F chunks b d res h).1

/-- Witness for the amended C2: the stream [1, 2, 3] decoded with a 1-byte
window from two input chunks [1, 2] and [3]; the pair between the second and
third buffers spans the chain-call boundary. -/
theorem c2_amended_witness :
    List.Chain'
      (fun x y : OutBuf => y.offset = (x.offset + x.data.length) % 4294967296)
      [⟨[1], 0⟩, ⟨[2], 1⟩, ⟨[3], 2⟩] :=
  c2_amended_offsets_contiguous (modelOracle (fun l => l) 3) okSink 5
    ⟨1, true, ⟨[], 0, ([], 0)⟩, 0⟩ () [[1, 2], [3]]
    ⟨GstFlowReturn.ok, ⟨1, true, ⟨[], 3, ([1, 2, 3], 3)⟩, 3⟩, (),
     [⟨[1], 0⟩, ⟨[2], 1⟩, ⟨[3], 2⟩], [], BzRet.ok⟩
    (by decide)

/-- Witness for C10 on the 40-byte scenario run: the three stamped offsets
are the cumulative counts 0, 16, 32 modulo 2^32. -/
theorem c10_witness :
    offsetsFromB 0
      [⟨[0, 1, 2, 3, 4, 5, 6, 7, 8, 9, 10, 11, 12, 13, 14, 15], 0⟩,
       ⟨[16, 17, 18, 19, 20, 21, 22, 23, 24, 25, 26, 27, 28, 29, 30, 31], 16⟩,
       ⟨[32, 33, 34, 35, 36, 37, 38, 39], 32⟩] = true :=
  c10_offsets_mod32 (modelOracle (fun _ => pattern40) 3) okSink 10
    scenarioStart () [5, 6, 7]
    ⟨GstFlowReturn.ok, ⟨16, true, ⟨[], 40, ([5, 6, 7], 40)⟩, 40⟩, (),
     [⟨[0, 1, 2, 3, 4, 5, 6, 7, 8, 9, 10, 11, 12, 13, 14, 15], 0⟩,
      ⟨[16, 17, 18, 19, 20, 21, 22, 23, 24, 25, 26, 27, 28, 29, 30, 31], 16⟩,
      ⟨[32, 33, 34, 35, 36, 37, 38, 39], 32⟩], [], BzRet.streamEnd⟩
    (by decide)

/-! ## Claim C3: downstream failures during the loop -/

/-- C3 counterexample: a failing `gst_pad_push` makes the chain call return
the failure (`GST_FLOW_FLUSHING`), but the element is NOT reinitialized: its
offset stays 5 (not reset to 0) and its session state is not the fresh one. -/
theorem c3_counterexample :
    gst_bz2dec_chain pushFailOracle pushFailSink 5 pushFailStart 0 [9]
      = some ⟨GstFlowReturn.flushing, ⟨8, true, ⟨[], 8, 2⟩, 5⟩, 2,
              [⟨[1, 2, 3, 4, 5], 0⟩], [], BzRet.ok⟩ ∧
    ¬ ((⟨8, true, ⟨[], 8, 2⟩, 5⟩ : GstBz2dec Nat).offset = 0) ∧
    ¬ ((⟨8, true, ⟨[], 8, 2⟩, 5⟩ : GstBz2dec Nat).stream.inner
        = pushFailOracle.fresh) :=
  ⟨by decide, by decide, by decide⟩

/-- C3 (amended): the two downstream failure modes behave differently.  A
failed buffer allocation reinitializes the element (offset 0, ready again iff
the restart succeeds) and propagates the allocation's flow result; a failed
push propagates the push's flow result without any reinitialization — the
element keeps its `ready` flag and its 64-bit offset. -/
theorem c3_amended_failure_paths {σ δ : Type} (o : BzOracle σ) (sink : Sink δ) :
    (∀ (fuel : Nat) (b : GstBz2dec σ) (d : δ),
      (sink.alloc d b.offset b.buffer_size).1 ≠ GstFlowReturn.ok →
      chainLoop o sink (fuel + 1) b d BzRet.ok =
        some ⟨(sink.alloc d b.offset b.buffer_size).1,
              gst_bz2dec_decompress_init o b,
              (sink.alloc d b.offset b.buffer_size).2, [], initErrors o,
              BzRet.ok⟩ ∧
      (gst_bz2dec_decompress_init o b).offset = 0 ∧
      (gst_bz2dec_decompress_init o b).ready = o.initOk) ∧
    (∀ (fuel : Nat) (b : GstBz2dec σ) (d : δ),
      (sink.alloc d b.offset b.buffer_size).1 = GstFlowReturn.ok →
      (o.step b.stream.inner b.stream.availIn b.buffer_size).ret.isErr = false →
      (o.step b.stream.inner b.stream.availIn b.buffer_size).produced.length ≠ 0 →
      (sink.push (sink.alloc d b.offset b.buffer_size).2
          (bz2MkOut b (o.step b.stream.inner b.stream.availIn b.buffer_size))).1
        ≠ GstFlowReturn.ok →
      chainLoop o sink (fuel + 1) b d BzRet.ok =
        some ⟨(sink.push (sink.alloc d b.offset b.buffer_size).2
                (bz2MkOut b (o.step b.stream.inner b.stream.availIn b.buffer_size))).1,
              bz2Advance b (o.step b.stream.inner b.stream.availIn b.buffer_size),
              (sink.push (sink.alloc d b.offset b.buffer_size).2
                (bz2MkOut b (o.step b.stream.inner b.stream.availIn b.buffer_size))).2,
              [], [],
              (o.step b.stream.inner b.stream.availIn b.buffer_size).ret⟩ ∧
      (bz2Advance b (o.step b.stream.inner b.stream.availIn b.buffer_size)).ready
        = b.ready ∧
      (bz2Advance b (o.step b.stream.inner b.stream.availIn b.buffer_size)).offset
        = b.offset) := by
  constructor
  · intro fuel b d halloc
    refine ⟨chainLoop_succ_allocfail o sink fuel b d BzRet.ok (by decide) halloc,
            ?_, ?_⟩
    · cases ho : o.initOk <;>
        simp [gst_bz2dec_decompress_init, gst_bz2dec_decompress_end, ho]
    · cases ho : o.initOk <;>
        simp [gst_bz2dec_decompress_init, gst_bz2dec_decompress_end, ho]
  · intro fuel b d halloc herr hn hpush
    exact ⟨chainLoop_succ_pushfail o sink fuel b d BzRet.ok (by decide) halloc
             herr hn hpush, rfl, rfl⟩

/-- Witness for the amended C3: concrete runs of both failure modes. -/
theorem c3_amended_witness :
    (chainLoop unitOracle failAllocSink 1
        (⟨4, true, ⟨[7], 3, ()⟩, 9⟩ : GstBz2dec Unit) () BzRet.ok =
      some ⟨GstFlowReturn.notLinked,
            gst_bz2dec_decompress_init unitOracle ⟨4, true, ⟨[7], 3, ()⟩, 9⟩,
            (), [], initErrors unitOracle, BzRet.ok⟩ ∧
      (gst_bz2dec_decompress_init unitOracle
        (⟨4, true, ⟨[7], 3, ()⟩, 9⟩ : GstBz2dec Unit)).offset = 0 ∧
      (gst_bz2dec_decompress_init unitOracle
        (⟨4, true, ⟨[7], 3, ()⟩, 9⟩ : GstBz2dec Unit)).ready
        = unitOracle.initOk) ∧
    (chainLoop pushFailOracle pushFailSink 1 pushFailStart 1 BzRet.ok =
      some ⟨GstFlowReturn.flushing, ⟨8, true, ⟨[], 5, 1⟩, 0⟩, 2, [], [],
            BzRet.ok⟩ ∧
      (⟨8, true, ⟨[], 5, 1⟩, 0⟩ : GstBz2dec Nat).ready = pushFailStart.ready ∧
      (⟨8, true, ⟨[], 5, 1⟩, 0⟩ : GstBz2dec Nat).offset = pushFailStart.offset) :=
  ⟨(c3_amended_failure_paths unitOracle failAllocSink).1 0
      ⟨4, true, ⟨[7], 3, ()⟩, 9⟩ () (by decide),
   (c3_amended_failure_paths pushFailOracle pushFailSink).2 0
      pushFailStart 1 rfl rfl (by decide) (by decide)⟩

/-! ## Claim C9: loop termination -/

/-- Loop iteration whose decompression call reports an unrecoverable code:
the decode condition is posted, the element reinitialized, and
`GST_FLOW_ERROR` returned. -/
theorem chainLoop_succ_err {σ δ : Type} (o : BzOracle σ) (sink : Sink δ)
    (fuel : Nat) (b : GstBz2dec σ) (d : δ) (r : BzRet)
    (hr : r ≠ BzRet.streamEnd)
    (halloc : (sink.alloc d b.offset b.buffer_size).1 = GstFlowReturn.ok)
    (herr : (o.step b.stream.inner b.stream.availIn b.buffer_size).ret.isErr
              = true) :
    chainLoop o sink (fuel + 1) b d r =
      some ⟨GstFlowReturn.error,
            gst_bz2dec_decompress_init o
              (bz2Advance b (o.step b.stream.inner b.stream.availIn b.buffer_size)),
            (sink.alloc d b.offset b.buffer_size).2, [],
            ElemError.decodeFailed
              (o.step b.stream.inner b.stream.availIn b.buffer_size).ret.errCode
              :: initErrors o,
            (o.step b.stream.inner b.stream.availIn b.buffer_size).ret⟩ := by
  rw [chainLoop]
  rw [if_neg hr, if_neg (by simp [halloc]), if_pos herr]

/-- Against a primitive that keeps reporting `BZ_OK` and writing one byte per
call without consuming input, the loop never exits, whatever the fuel. -/
theorem chainLoop_spin :
    ∀ (fuel : Nat) (b : GstBz2dec Unit), b.buffer_size = 1 →
      chainLoop spinOracle okSink fuel b () BzRet.ok = none
  | 0, _, _ => rfl
  | Nat.succ fuel, b, hbs => by
      rw [show Nat.succ fuel = fuel + 1 from rfl]
      rw [chainLoop_succ_push spinOracle okSink fuel b () BzRet.ok
          (by decide) rfl rfl (by simp [spinOracle, hbs]) rfl]
      simp only
        [show (spinOracle.step b.stream.inner b.stream.availIn b.buffer_size).ret
            = BzRet.ok from rfl,
         show ∀ x y, (okSink.push x y).2 = () from fun _ _ => rfl]
      rw [chainLoop_spin fuel _ (by simp [bz2Bump, bz2Advance, hbs])]
      rfl

/-- C9 counterexample: `spinOracle` produces output bytes at every step (for
any positive window), satisfying the claim's consumes-and/or-produces premise,
yet the chain call on it never terminates: no amount of fuel makes the loop
exit. -/
theorem c9_counterexample :
    (∀ (s : Unit) (inp : List Nat) (cap : Nat), 1 ≤ cap →
        (spinOracle.step s inp cap).produced.length ≠ 0) ∧
    ¬ ∃ fuel, (gst_bz2dec_chain spinOracle okSink fuel spinStart () []).isSome := by
  constructor
  · intro s inp cap hcap
    simp [spinOracle]
    omega
  · rintro ⟨fuel, hfuel⟩
    rw [show gst_bz2dec_chain spinOracle okSink fuel spinStart () []
          = chainLoop spinOracle okSink fuel ⟨1, true, ⟨[], 0, ()⟩, 0⟩ ()
              BzRet.ok from rfl] at hfuel
    rw [chainLoop_spin fuel _ rfl] at hfuel
    simp at hfuel

/-- C9 (amended): the loop exits as soon as the primitive reports stream-end,
a step produces zero bytes, a step errors, or the downstream peer fails; it
terminates for every primitive that cannot produce output forever without
consuming input — formally, whenever some measure `μ` of the primitive's
internal state strictly decreases on every ordinary productive step that
consumes nothing (true of a real decompressor, whose buffered output per
consumed input is finite).  Without that bound the loop can spin forever, as
the counterexample shows. -/
theorem c9_amended_terminates {σ δ : Type} (o : BzOracle σ) (sink : Sink δ)
    (μ : σ → Nat)
    (hwf : ∀ s inp cap, (o.step s inp cap).consumed ≤ inp.length)
    (hdec : ∀ s inp cap, (o.step s inp cap).ret = BzRet.ok →
        (o.step s inp cap).produced ≠ [] → (o.step s inp cap).consumed = 0 →
        μ (o.step s inp cap).inner < μ s)
    (b : GstBz2dec σ) (d : δ) (r : BzRet) :
    ∃ fuel, (chainLoop o sink fuel b d r).isSome := by
  suffices H : ∀ (n m : Nat) (b : GstBz2dec σ) (d : δ) (r : BzRet),
      b.stream.availIn.length = n → μ b.stream.inner = m →
      ∃ fuel, (chainLoop o sink fuel b d r).isSome by
    exact H _ _ b d r rfl rfl
  intro n
  induction n using Nat.strong_induction_on with
  | _ n ihn =>
    intro m
    induction m using Nat.strong_induction_on with
    | _ m ihm =>
      intro b d r hlen hmu
      by_cases hr : r = BzRet.streamEnd
      · subst hr
        exact ⟨1, by rw [show (1 : Nat) = 0 + 1 from rfl,
                         chainLoop_succ_end o sink 0 b d]; rfl⟩
      by_cases halloc : (sink.alloc d b.offset b.buffer_size).1 = GstFlowReturn.ok
      · by_cases herr : (o.step b.stream.inner b.stream.availIn b.buffer_size).ret.isErr = true
        · exact ⟨1, by rw [show (1 : Nat) = 0 + 1 from rfl,
                           chainLoop_succ_err o sink 0 b d r hr halloc herr]; rfl⟩
        · have herr' : (o.step b.stream.inner b.stream.availIn b.buffer_size).ret.isErr = false :=
            Bool.not_eq_true _ ▸ Bool.of_not_eq_true herr
          by_cases hn0 : (o.step b.stream.inner b.stream.availIn b.buffer_size).produced.length = 0
          · exact ⟨1, by rw [show (1 : Nat) = 0 + 1 from rfl,
                             chainLoop_succ_zero o sink 0 b d r hr halloc herr' hn0]; rfl⟩
          · by_cases hpush : (sink.push (sink.alloc d b.offset b.buffer_size).2
                (bz2MkOut b (o.step b.stream.inner b.stream.availIn b.buffer_size))).1
                  = GstFlowReturn.ok
            · have hrecEx : ∃ fuel,
                  (chainLoop o sink fuel
                    (bz2Bump (bz2Advance b
                        (o.step b.stream.inner b.stream.availIn b.buffer_size))
                      (o.step b.stream.inner b.stream.availIn b.buffer_size).produced.length)
                    (sink.push (sink.alloc d b.offset b.buffer_size).2
                      (bz2MkOut b (o.step b.stream.inner b.stream.availIn b.buffer_size))).2
                    (o.step b.stream.inner b.stream.availIn b.buffer_size).ret).isSome := by
                by_cases hre : (o.step b.stream.inner b.stream.availIn b.buffer_size).ret
                    = BzRet.streamEnd
                · rw [hre]
                  exact ⟨1, by rw [show (1 : Nat) = 0 + 1 from rfl,
                                   chainLoop_succ_end]; rfl⟩
                · have hok : (o.step b.stream.inner b.stream.availIn b.buffer_size).ret
                      = BzRet.ok := by
                    cases hc : (o.step b.stream.inner b.stream.availIn b.buffer_size).ret with
                    | ok => rfl
                    | streamEnd => exact absurd hc hre
                    | err c => rw [hc] at herr'; simp [BzRet.isErr] at herr'
                  have hne : (o.step b.stream.inner b.stream.availIn b.buffer_size).produced ≠ [] := by
                    intro hnil
                    rw [hnil] at hn0
                    simp at hn0
                  cases hc : (o.step b.stream.inner b.stream.availIn b.buffer_size).consumed with
                  | zero =>
                    have hμ : μ (o.step b.stream.inner b.stream.availIn b.buffer_size).inner < m :=
                      hmu ▸ hdec _ _ _ hok hne hc
                    exact ihm _ hμ _ _ _
                      (by simp [bz2Bump, bz2Advance, hc, hlen]) rfl
                  | succ k =>
                    have hcons : (o.step b.stream.inner b.stream.availIn b.buffer_size).consumed
                        ≤ n := hlen ▸ hwf _ _ _
                    have hlt : n - (k + 1) < n := by
                      rw [hc] at hcons
                      omega
                    exact ihn _ hlt _ _ _ _
                      (by simp [bz2Bump, bz2Advance, hc, hlen]) rfl
              obtain ⟨fuel, hfuel⟩ := hrecEx
              refine ⟨fuel + 1, ?_⟩
              rw [chainLoop_succ_push o sink fuel b d r hr halloc herr' hn0 hpush]
              simpa using hfuel
            · exact ⟨1, by rw [show (1 : Nat) = 0 + 1 from rfl,
                               chainLoop_succ_pushfail o sink 0 b d r hr halloc
                                 herr' hn0 hpush]; rfl⟩
      · exact ⟨1, by rw [show (1 : Nat) = 0 + 1 from rfl,
                         chainLoop_succ_allocfail o sink 0 b d r hr halloc]; rfl⟩

/-- Witness for the amended C9: a primitive that always consumes its whole
input and never buffers output terminates from any start state (constant
measure). -/
theorem c9_amended_witness :
    ∃ fuel, (chainLoop drainOracle okSink fuel spinStart () BzRet.ok).isSome :=
  c9_amended_terminates drainOracle okSink (fun _ => 0)
    (fun _ inp _ => Nat.le_refl inp.length)
    (fun _ _ _ _ hne _ => absurd rfl hne)
    spinStart () BzRet.ok

/-- A take of a list followed by the drop past that take reassembles the
list. -/
theorem take_len_append_drop (l : List Nat) (n : Nat) :
    l.take n ++ l.drop (l.take n).length = l := by
  rcases le_or_lt n l.length with hle | hlt
  · rw [List.length_take, Nat.min_eq_left hle, List.take_append_drop]
  · rw [List.take_of_length_le (Nat.le_of_lt hlt), List.drop_length,
        List.append_nil]

/-- The window-sized slice taken at position `e` followed by the remainder
past it reassembles the suffix from `e`. -/
theorem drop_take_concat (D : List Nat) (e bs : Nat) :
    (D.drop e).take bs ++ D.drop (e + ((D.drop e).take bs).length) = D.drop e := by
  have h1 : D.drop (e + ((D.drop e).take bs).length)
      = (D.drop e).drop ((D.drop e).take bs).length := by
    rw [List.drop_drop, Nat.add_comm]
  rw [h1, take_len_append_drop]

/-- Complete drain of the loop against the idealized streaming decompressor:
from consumed prefix `c`, emitted count `e` and input window `x`, a run with
enough fuel succeeds, consumes the window, emits exactly the not-yet-emitted
decodable bytes in order, and leaves the emitted count at everything
decodable from `c ++ x`. -/
theorem model_chainLoop (f : List Nat → List Nat) (L bs : Nat) (hbs : 1 ≤ bs) :
    ∀ (fuel : Nat) (c x : List Nat) (e t off : Nat),
      e ≤ (f (c ++ x)).length →
      (f (c ++ x)).length - e + 2 ≤ fuel →
      ∃ (outs : List OutBuf) (ret : BzRet) (t2 off2 : Nat),
        chainLoop (modelOracle f L) okSink fuel
            ⟨bs, true, ⟨x, t, (c, e)⟩, off⟩ () BzRet.ok
          = some ⟨GstFlowReturn.ok,
                  ⟨bs, true, ⟨[], t2, (c ++ x, (f (c ++ x)).length)⟩, off2⟩, (),
                  outs, [], ret⟩ ∧
        (outs.map OutBuf.data).flatten = (f (c ++ x)).drop e
  | 0 => by
      intro c x e t off he hf
      omega
  | Nat.succ n => by
      intro c x e t off he hf
      have hret : ((modelOracle f L).step (c, e) x bs).ret
          = if (c ++ x).length = L ∧
               e + (((f (c ++ x)).drop e).take bs).length = (f (c ++ x)).length
            then BzRet.streamEnd else BzRet.ok := rfl
      have hisErr : ((modelOracle f L).step (c, e) x bs).ret.isErr = false := by
        rw [hret]
        split <;> rfl
      have hplen : (((f (c ++ x)).drop e).take bs).length
          = min bs ((f (c ++ x)).length - e) := by
        rw [List.length_take, List.length_drop]
      by_cases hp0 : (((f (c ++ x)).drop e).take bs).length = 0
      · -- the step produced nothing: the loop exits via the break
        have he' : e = (f (c ++ x)).length := by omega
        rw [show Nat.succ n = n + 1 from rfl,
            chainLoop_succ_zero (modelOracle f L) okSink n
              ⟨bs, true, ⟨x, t, (c, e)⟩, off⟩ () BzRet.ok (by decide) rfl
              hisErr hp0]
        refine ⟨[], ((modelOracle f L).step (c, e) x bs).ret, t, off, ?_, ?_⟩
        · simp only [bz2Advance,
            show ((modelOracle f L).step (c, e) x bs).consumed
              = x.length from rfl,
            show ((modelOracle f L).step (c, e) x bs).produced
              = ((f (c ++ x)).drop e).take bs from rfl,
            show ((modelOracle f L).step (c, e) x bs).inner
              = (c ++ x, e + (((f (c ++ x)).drop e).take bs).length) from rfl,
            hp0, List.drop_length, Nat.add_zero]
          rw [he']
        · rw [he', List.drop_length]
          rfl
      · -- productive step
        rw [show Nat.succ n = n + 1 from rfl,
            chainLoop_succ_push (modelOracle f L) okSink n
              ⟨bs, true, ⟨x, t, (c, e)⟩, off⟩ () BzRet.ok (by decide) rfl
              hisErr hp0 rfl]
        simp only [show ∀ x y, (okSink.push x y).2 = () from fun _ _ => rfl]
        simp only [bz2Bump, bz2Advance,
          show ((modelOracle f L).step (c, e) x bs).consumed = x.length from rfl,
          show ((modelOracle f L).step (c, e) x bs).produced
            = ((f (c ++ x)).drop e).take bs from rfl,
          show ((modelOracle f L).step (c, e) x bs).inner
            = (c ++ x, e + (((f (c ++ x)).drop e).take bs).length) from rfl,
          List.drop_length]
        by_cases hC : (c ++ x).length = L ∧
            e + (((f (c ++ x)).drop e).take bs).length = (f (c ++ x)).length
        · -- this step also saw the end of the stream
          rw [hret, if_pos hC]
          have hn1 : n = (n - 1) + 1 := by omega
          rw [hn1, chainLoop_succ_end]
          refine ⟨[bz2MkOut ⟨bs, true, ⟨x, t, (c, e)⟩, off⟩
                    ((modelOracle f L).step (c, e) x bs)],
                  BzRet.streamEnd,
                  t + (((f (c ++ x)).drop e).take bs).length,
                  (off + (((f (c ++ x)).drop e).take bs).length)
                    % 18446744073709551616, ?_, ?_⟩
          · simp only [Option.map_some', Option.some.injEq]
            rw [hC.2]
          · simp only [List.map_cons, List.map_nil, List.flatten_cons,
              List.flatten_nil, List.append_nil,
              show (bz2MkOut ⟨bs, true, ⟨x, t, (c, e)⟩, off⟩
                  ((modelOracle f L).step (c, e) x bs)).data
                = ((f (c ++ x)).drop e).take bs from rfl]
            have hlen : ((f (c ++ x)).drop e).length ≤ bs := by
              rw [List.length_drop]
              omega
            rw [List.take_of_length_le hlen]
        · -- ordinary progress: recurse on the drained state
          rw [hret, if_neg hC]
          have hp1 : 1 ≤ (((f (c ++ x)).drop e).take bs).length := by omega
          obtain ⟨outs', ret'', t2, off2, hrun, hflat⟩ :=
            model_chainLoop f L bs hbs n (c ++ x) []
              (e + (((f (c ++ x)).drop e).take bs).length)
              (t + (((f (c ++ x)).drop e).take bs).length)
              ((off + (((f (c ++ x)).drop e).take bs).length)
                % 18446744073709551616)
              (by simp only [List.append_nil]; omega)
              (by simp only [List.append_nil]; omega)
          simp only [List.append_nil] at hrun hflat
          rw [hrun]
          refine ⟨bz2MkOut ⟨bs, true, ⟨x, t, (c, e)⟩, off⟩
                    ((modelOracle f L).step (c, e) x bs) :: outs',
                  ret'', t2, off2, ?_, ?_⟩
          · simp only [Option.map_some']
          · simp only [List.map_cons, List.flatten_cons,
              show (bz2MkOut ⟨bs, true, ⟨x, t, (c, e)⟩, off⟩
                  ((modelOracle f L).step (c, e) x bs)).data
                = ((f (c ++ x)).drop e).take bs from rfl, hflat]
            exact drop_take_concat (f (c ++ x)) e bs

/-- Dropping `e` from a list splits along any prefix of length at least
`e`. -/
theorem drop_along_front (l1 l2 : List Nat) (e : Nat) (h : l1 <+: l2)
    (he : e ≤ l1.length) :
    l2.drop e = l1.drop e ++ l2.drop l1.length := by
  obtain ⟨s, rfl⟩ := h
  rw [List.drop_append_of_le_length he, List.drop_left]

/-- Chain-level version of the drain lemma: one `gst_bz2dec_chain` call on
an input chunk `x` emits exactly the newly decodable bytes. -/
theorem model_chain (f : List Nat → List Nat) (L bs : Nat) (hbs : 1 ≤ bs)
    (fuel : Nat) (c x a0 : List Nat) (e t off : Nat)
    (he : e ≤ (f (c ++ x)).length)
    (hf : (f (c ++ x)).length - e + 2 ≤ fuel) :
    ∃ (outs : List OutBuf) (ret : BzRet) (t2 off2 : Nat),
      gst_bz2dec_chain (modelOracle f L) okSink fuel
          ⟨bs, true, ⟨a0, t, (c, e)⟩, off⟩ () x
        = some ⟨GstFlowReturn.ok,
                ⟨bs, true, ⟨[], t2, (c ++ x, (f (c ++ x)).length)⟩, off2⟩, (),
                outs, [], ret⟩ ∧
      (outs.map OutBuf.data).flatten = (f (c ++ x)).drop e := by
  have hc : gst_bz2dec_chain (modelOracle f L) okSink fuel
      ⟨bs, true, ⟨a0, t, (c, e)⟩, off⟩ () x
      = chainLoop (modelOracle f L) okSink fuel
          ⟨bs, true, ⟨x, t, (c, e)⟩, off⟩ () BzRet.ok := rfl
  rw [hc]
  exact model_chainLoop f L bs hbs fuel c x e t off he hf

/-- Feeding any chunk sequence to `chainMany` against the idealized
decompressor succeeds and emits exactly the bytes decodable from the
concatenation of all consumed chunks, in order. -/
theorem model_chainMany (f : List Nat → List Nat) (L bs : Nat) (hbs : 1 ≤ bs)
    (hmono : ∀ u v, f u <+: f (u ++ v)) :
    ∀ (chunks : List (List Nat)) (F : Nat) (c a0 : List Nat) (t off : Nat),
      (f (c ++ chunks.flatten)).length + 2 ≤ F →
      ∃ (res : ChainResult (List Nat × Nat) Unit) (t2 off2 : Nat) (a2 : List Nat),
        chainMany (modelOracle f L) okSink F
            ⟨bs, true, ⟨a0, t, (c, (f c).length)⟩, off⟩ () chunks
          = some res ∧
        res.flow = GstFlowReturn.ok ∧
        res.state = ⟨bs, true,
          ⟨a2, t2, (c ++ chunks.flatten, (f (c ++ chunks.flatten)).length)⟩,
          off2⟩ ∧
        chainBytes res = (f (c ++ chunks.flatten)).drop (f c).length
  | [], F, c, a0, t, off => by
      intro hF
      refine ⟨⟨GstFlowReturn.ok, ⟨bs, true, ⟨a0, t, (c, (f c).length)⟩, off⟩,
               (), [], [], BzRet.ok⟩, t, off, a0, rfl, rfl, ?_, ?_⟩
      · simp [List.flatten_nil, List.append_nil]
      · simp [chainBytes, List.flatten_nil, List.append_nil, List.drop_length]
  | x :: xs, F, c, a0, t, off => by
      intro hF
      have hflat : (x :: xs).flatten = x ++ xs.flatten := List.flatten_cons
      have hpre1 : f c <+: f (c ++ x) := hmono c x
      have he : (f c).length ≤ (f (c ++ x)).length := by
        obtain ⟨s, hs⟩ := hpre1
        rw [← hs, List.length_append]
        exact Nat.le_add_right _ _
      have hpre2 : f (c ++ x) <+: f (c ++ (x :: xs).flatten) := by
        rw [hflat, ← List.append_assoc]
        exact hmono (c ++ x) xs.flatten
      have hle2 : (f (c ++ x)).length ≤ (f (c ++ (x :: xs).flatten)).length := by
        obtain ⟨s, hs⟩ := hpre2
        rw [← hs, List.length_append]
        exact Nat.le_add_right _ _
      obtain ⟨outs, ret, t2, off2, hrun, hbytes⟩ :=
        model_chain f L bs hbs F c x a0 (f c).length t off he (by omega)
      obtain ⟨res2, t3, off3, a3, hrun2, hflow2, hstate2, hbytes2⟩ :=
        model_chainMany f L bs hbs hmono xs F (c ++ x) [] t2 off2
          (by rw [List.append_assoc, ← hflat]; omega)
      refine ⟨{ res2 with
                outputs := outs ++ res2.outputs,
                errors := [] ++ res2.errors }, t3, off3, a3, ?_, ?_, ?_, ?_⟩
      · simp only [chainMany]
        rw [hrun]
        simp only [if_pos rfl]
        rw [hrun2]
        rfl
      · exact hflow2
      · rw [hstate2, hflat, List.append_assoc]
      · have : chainBytes { res2 with
            outputs := outs ++ res2.outputs,
            errors := [] ++ res2.errors }
            = (outs.map OutBuf.data).flatten ++ chainBytes res2 := by
          simp [chainBytes, List.map_append, List.flatten_append]
        rw [this, hbytes, hbytes2, hflat, ← List.append_assoc]
        rw [drop_along_front (f (c ++ x)) (f (c ++ x ++ xs.flatten)) (f c).length
            (hmono (c ++ x) xs.flatten) he]

/-- C1: chunking invariance.  For the black-box streaming decompressor
(prefix-monotone decode function `f` with `f [] = []`) and any split of the
compressed stream into chunks, feeding the chunks one by one through the
chain operation produces output whose concatenated bytes equal the
concatenated bytes of feeding the whole stream as one chunk (both equal the
decoded stream). -/
theorem c1_chunking_invariance (f : List Nat → List Nat)
    (chunks : List (List Nat)) (bs : Nat)
    (hmono : ∀ u v, f u <+: f (u ++ v)) (hnil : f [] = []) (hbs : 1 ≤ bs) :
    (chainMany (modelOracle f chunks.flatten.length) okSink
        ((f chunks.flatten).length + 2)
        (gst_bz2dec_set_buffer_size
          (gst_bz2dec_element_init (modelOracle f chunks.flatten.length)) bs)
        () chunks).map chainBytes
      = (chainMany (modelOracle f chunks.flatten.length) okSink
          ((f chunks.flatten).length + 2)
          (gst_bz2dec_set_buffer_size
            (gst_bz2dec_element_init (modelOracle f chunks.flatten.length)) bs)
          () [chunks.flatten]).map chainBytes := by
  have hstart : gst_bz2dec_set_buffer_size
      (gst_bz2dec_element_init (modelOracle f chunks.flatten.length)) bs
      = (⟨bs, true, ⟨[], 0, ([], 0)⟩, 0⟩ : GstBz2dec (List Nat × Nat)) := rfl
  have h0 : (f ([] : List Nat)).length = 0 := by rw [hnil]; rfl
  obtain ⟨res1, t1, o1, a1, hrun1, hflow1, hstate1, hbytes1⟩ :=
    model_chainMany f chunks.flatten.length bs hbs hmono chunks
      ((f chunks.flatten).length + 2) [] [] 0 0
      (by simp only [List.nil_append]; omega)
  obtain ⟨res2, t2, o2, a2, hrun2, hflow2, hstate2, hbytes2⟩ :=
    model_chainMany f chunks.flatten.length bs hbs hmono [chunks.flatten]
      ((f chunks.flatten).length + 2) [] [] 0 0
      (by simp only [List.nil_append, List.flatten_cons, List.flatten_nil,
                     List.append_nil]
          omega)
  rw [h0] at hrun1 hrun2
  rw [hstart, hrun1, hrun2]
  simp only [Option.map_some', Option.some.injEq]
  rw [hbytes1, hbytes2]
  simp only [List.nil_append, List.flatten_cons, List.flatten_nil,
             List.append_nil, h0, List.drop_zero]

/-- Witness for C1: the identity codec on the stream [1, 2, 3] split as
[1, 2] ++ [3], window size 1. -/
theorem c1_witness :
    (chainMany (modelOracle (fun l => l) [[1, 2], [3]].flatten.length) okSink
        (((fun l : List Nat => l) [[1, 2], [3]].flatten).length + 2)
        (gst_bz2dec_set_buffer_size
          (gst_bz2dec_element_init
            (modelOracle (fun l => l) [[1, 2], [3]].flatten.length)) 1)
        () [[1, 2], [3]]).map chainBytes
      = (chainMany (modelOracle (fun l => l) [[1, 2], [3]].flatten.length) okSink
          (((fun l : List Nat => l) [[1, 2], [3]].flatten).length + 2)
          (gst_bz2dec_set_buffer_size
            (gst_bz2dec_element_init
              (modelOracle (fun l => l) [[1, 2], [3]].flatten.length)) 1)
          () [[[1, 2], [3]].flatten]).map chainBytes :=
  c1_chunking_invariance (fun l => l) [[1, 2], [3]] 1
    (fun u v => ⟨v, rfl⟩) rfl (by decide)
